import Mathlib

/-!
Shallow embedding of the CWLink linker (`src/cwlink.py`) and of the block
walker of the inspector (`src/hunkinfo.py`).  Python strings are modelled as
lists of code points (`List Nat`), byte streams as `List Nat`, Python `dict`s
as insertion-ordered association lists, and Python exceptions as values of
`PyErr`.  Every definition mirrors a concrete place in the source; the place
is named in its doc comment.
-/

namespace CWLink

/-- A Python `str` value, as the list of its code points. -/
def pys (s : String) : List Nat := s.data.map Char.toNat

/-- Value returned by `HunkReader._read_string` (cwlink.py:235-240): either a
proper string, or — on an empty read — the `EOFError` *class object* itself,
which the source returns instead of raising. -/
inductive PyStr where
  | s (cs : List Nat)
  | eofClass
deriving DecidableEq

/-- Python exceptions that the embedded code can raise.  `outOfFuel` is an
artifact of the fueled loops and is unreachable for the fuel used here. -/
inductive PyErr where
  | eofError
  | structError
  | keyError
  | typeError
  | valueError
  | nameError
  | unboundLocal
  | attrError
  | unicodeError
  | indexError
  | outOfFuel
deriving DecidableEq

instance {ε α : Type} [DecidableEq ε] [DecidableEq α] : DecidableEq (Except ε α) := fun a b =>
  match a, b with
  | .ok x, .ok y =>
    if h : x = y then isTrue (by rw [h]) else isFalse (fun hh => by cases hh; exact h rfl)
  | .error x, .error y =>
    if h : x = y then isTrue (by rw [h]) else isFalse (fun hh => by cases hh; exact h rfl)
  | .ok _, .error _ => isFalse (fun hh => Except.noConfusion hh)
  | .error _, .ok _ => isFalse (fun hh => Except.noConfusion hh)

/-- `Reference = recordclass('Reference', ('sname', 'type', 'offset'))` (cwlink.py:47). -/
structure Reference where
  sname : PyStr
  rtype : Nat
  offset : Nat
deriving DecidableEq

/-- `Reloc = recordclass('Reloc', ('uname', 'htype', 'hname', 'hnum', 'offset'))`
(cwlink.py:46).  `hnum` is an `Int` because the resolve phase stores `-1`. -/
structure Reloc where
  uname : PyStr
  htype : List Nat
  hname : PyStr
  hnum : Int
  offset : Nat
deriving DecidableEq

/-- `Hunk = recordclass('Hunk', ('uname', 'content', 'refs', 'relocs'))` (cwlink.py:44). -/
structure Hunk where
  uname : PyStr
  content : List Nat
  refs : List Reference
  relocs : List Reloc
deriving DecidableEq

/-- `Symbol = recordclass('Symbol', ('uname', 'htype', 'hname', 'offset'))` (cwlink.py:45). -/
structure Symbol where
  uname : PyStr
  htype : List Nat
  hname : PyStr
  offset : Nat
deriving DecidableEq

/-- One class bucket of `db.hunks`: an insertion-ordered dict from hunk name
to the list of hunks registered under that name (cwlink.py:50). -/
abbrev Bucket := List (PyStr × List Hunk)

/-- `DataBase = recordclass('DataBase', ('hunks', 'symbols', 'map'))`
(cwlink.py:48-50); the `hunks` dict is split into its three fixed keys.
`map` is keyed by the joined string `uname + hnum + hname` and stores the
`(output hunk number, displacement)` pair that the source keeps as the
string `str(hnum) + ":" + str(disp)`. -/
structure Db where
  code : Bucket
  data : Bucket
  bss : Bucket
  symbols : List (PyStr × Symbol)
  map : List (List Nat × Nat × Nat)
deriving DecidableEq

def emptyDb : Db := ⟨[], [], [], [], []⟩

/-- Python dict lookup. -/
def dictGet {α β : Type} [DecidableEq α] : List (α × β) → α → Option β
  | [], _ => none
  | (k, v) :: t, x => if k = x then some v else dictGet t x

/-- Python dict assignment: replaces in place, or appends a fresh key at the
end (dicts preserve insertion order). -/
def dictSet {α β : Type} [DecidableEq α] : List (α × β) → α → β → List (α × β)
  | [], x, v => [(x, v)]
  | (k, w) :: t, x, v => if k = x then (x, v) :: t else (k, w) :: dictSet t x v

/-- Update element `i` of a list in place. -/
def updList {α : Type} (l : List α) (i : Nat) (f : α → α) : List α :=
  match l[i]? with
  | some x => l.set i (f x)
  | none => l

/-- Big-endian 32-bit value of four bytes, as in `unpack('>L', ...)`. -/
def be32 (a b c d : Nat) : Nat := ((a * 256 + b) * 256 + c) * 256 + d

/-- Big-endian 4-byte encoding of a value below `2^32`, as in `pack('>L', n)`. -/
def enc32 (n : Nat) : List Nat := [n / 2 ^ 24 % 256, n / 2 ^ 16 % 256, n / 2 ^ 8 % 256, n % 256]

/-- `pack('>L', n)` for a nonnegative `n`: `struct.error` when out of range. -/
def packW (n : Nat) : Except PyErr (List Nat) :=
  if n < 2 ^ 32 then .ok (enc32 n) else .error .structError

/-- `pack('>L', i)` for a possibly negative `i` (the `hnum - 1` word of the
header, cwlink.py:272): `struct.error` when out of the `u32` range. -/
def packWI (i : Int) : Except PyErr (List Nat) :=
  if 0 ≤ i ∧ i < 2 ^ 32 then .ok (enc32 i.toNat) else .error .structError

/-- `HunkReader._read_word` (cwlink.py:227-232): `file.read(4)` returns up to
4 bytes; an *empty* buffer raises `EOFError`, but a 1-3 byte buffer reaches
`unpack('>L', ...)`, which raises `struct.error`. -/
def readWord (s : List Nat) : Except PyErr (Nat × List Nat) :=
  match s with
  | a :: b :: c :: d :: rest => .ok (be32 a b c d, rest)
  | [] => .error .eofError
  | _ => .error .structError

/-- `HunkReader._read_string` (cwlink.py:235-240): an empty buffer makes the
source *return* the `EOFError` class instead of raising; a short nonempty
buffer raises `struct.error` in `unpack`; bytes ≥ 0x80 fail the ASCII decode;
NUL bytes are stripped by `.replace` on success. -/
def readStr (nchars : Nat) (s : List Nat) : Except PyErr (PyStr × List Nat) :=
  let buffer := s.take nchars
  if buffer = [] then .ok (.eofClass, s.drop nchars)
  else if buffer.length < nchars then .error .structError
  else if buffer.any (fun b => 128 ≤ b) then .error .unicodeError
  else .ok (.s (buffer.filter (fun b => b ≠ 0)), s.drop nchars)

/-- Python bytearray slice assignment `c[off:off+4] = w` where `w` has 4
bytes: replaces whatever lies in the (possibly clipped) slice. -/
def setSlice (c : List Nat) (off : Nat) (w : List Nat) : List Nat :=
  c.take off ++ w ++ c.drop (off + 4)

/-- `unpack('>L', c[off:off+4])[0]` (cwlink.py:294): `struct.error` unless the
slice holds exactly 4 bytes. -/
def sliceWord (c : List Nat) (off : Nat) : Except PyErr Nat :=
  match (c.drop off).take 4 with
  | [a, b, x, d] => .ok (be32 a b x d)
  | _ => .error .structError

/-- The string key `uname + ':' + htype + ':' + hname` used for `db.map`
(cwlink.py:288, 299, 322, 386): joining raises `TypeError` when one operand
is the `EOFError` class object. -/
def joinKey (u : PyStr) (t : List Nat) (n : PyStr) : Except PyErr (List Nat) :=
  match u, n with
  | .s us, .s ns => .ok (us ++ [58] ++ t ++ [58] ++ ns)
  | _, _ => .error .typeError

/-- `"a:b".split(':')`, on code-point lists. -/
def splitCol : List Nat → List (List Nat)
  | [] => [[]]
  | c :: t =>
    if c = 58 then [] :: splitCol t
    else
      match splitCol t with
      | h :: r => (c :: h) :: r
      | [] => [[c]]

/-- Lexicographic `<` on Python strings (restricted to code-point lists). -/
def lexLt : List Nat → List Nat → Bool
  | [], [] => false
  | [], _ :: _ => true
  | _ :: _, [] => false
  | a :: as, b :: bs => if a < b then true else if b < a then false else lexLt as bs

def insSort (x : List Nat) : List (List Nat) → List (List Nat)
  | [] => [x]
  | y :: ys => if lexLt y x then y :: insSort x ys else x :: y :: ys

def sortCs : List (List Nat) → List (List Nat)
  | [] => []
  | x :: xs => insSort x (sortCs xs)

def isEofClass : PyStr → Bool
  | .s _ => false
  | .eofClass => true

def csOf : PyStr → List Nat
  | .s cs => cs
  | .eofClass => []

/-- Python `sorted` on a list of keys that are strings or the `EOFError`
class: no comparison happens for at most one element; otherwise comparing a
class object raises `TypeError`. -/
def sortPyStrs (l : List PyStr) : Except PyErr (List PyStr) :=
  if l.length ≤ 1 then .ok l
  else if l.any isEofClass then .error .typeError
  else .ok ((sortCs (l.map csOf)).map .s)

/-- `db.hunks[t]` for one of the three literal class keys (cwlink.py:50). -/
def Db.getB (db : Db) (t : List Nat) : Except PyErr Bucket :=
  if t = pys "code" then .ok db.code
  else if t = pys "data" then .ok db.data
  else if t = pys "bss" then .ok db.bss
  else .error .keyError

def Db.setB (db : Db) (t : List Nat) (b : Bucket) : Db :=
  if t = pys "code" then { db with code := b }
  else if t = pys "data" then { db with data := b }
  else if t = pys "bss" then { db with bss := b }
  else db

/-- In-place mutation of the hunk object at position `i` of the list at
`db.hunks[t][n]` (the record objects are shared, so mutating the anchored
hunk mutates the database entry). -/
def Db.updHunk (db : Db) (t : List Nat) (n : PyStr) (i : Nat) (f : Hunk → Hunk) : Db :=
  match db.getB t with
  | .error _ => db
  | .ok b => db.setB t (dictSet b n (updList ((dictGet b n).getD []) i f))

/-- Decoder state of `HunkReader.read` (cwlink.py:102-224).  The `Option`
fields model Python local variables that may still be unbound; `anchor` is
the variable `hunk` (as the database address of the object it points to);
`hh` is `htype_hname`; `btype` holds the last successfully read block word. -/
structure RState where
  stream : List Nat
  db : Db
  hnum : Nat
  hh : List (Nat × List Nat)
  uname : Option PyStr
  hname : Option PyStr
  htype : Option (List Nat)
  anchor : Option (List Nat × PyStr × Nat)
  btype : Option Nat

/-- `self._read_string(self._read_word() * 4)` (cwlink.py:113, 117). -/
def readLenStr (st : RState) : Except PyErr (PyStr × RState) :=
  match readWord st.stream with
  | .error e => .error e
  | .ok (n, s2) =>
    match readStr (n * 4) s2 with
    | .error e => .error e
    | .ok (v, s3) => .ok (v, { st with stream := s3 })

/-- The `HUNK_CODE` / `HUNK_DATA` / `HUNK_BSS` handlers (cwlink.py:120-127,
167-174, 176-185): read the word count, set `htype`, build the hunk (reading
the body for code/data, zero bytes for bss), then register it under the
*current* value of `hname` — which the source never clears, and whose use
raises `UnboundLocalError` when no `NAME` block was ever seen. -/
def sectionStep (cls : List Nat) (isBss : Bool) (st : RState) : RState × Option PyErr :=
  match readWord st.stream with
  | .error e => (st, some e)
  | .ok (nwords, s2) =>
    let st := { st with stream := s2, htype := some cls }
    match st.uname with
    | none => (st, some .unboundLocal)
    | some u =>
      let body := if isBss then List.replicate (4 * nwords) 0 else s2.take (4 * nwords)
      let st := if isBss then st else { st with stream := s2.drop (4 * nwords) }
      let hunk : Hunk := ⟨u, body, [], []⟩
      match st.hname with
      | none => (st, some .unboundLocal)
      | some hn =>
        match st.db.getB cls with
        | .error e => (st, some e)
        | .ok b =>
          let old := (dictGet b hn).getD []
          let db := st.db.setB cls (dictSet b hn (old ++ [hunk]))
          ({ st with db := db, anchor := some (cls, hn, old.length) }, none)

/-- `hunk.relocs.append(Reloc(uname, '', '', refhnum, offset))` (cwlink.py:140). -/
def appendReloc (st : RState) (refh : Nat) (off : Nat) : RState × Option PyErr :=
  match st.anchor with
  | none => (st, some .unboundLocal)
  | some (t, n, i) =>
    match st.uname with
    | none => (st, some .unboundLocal)
    | some u =>
      let f : Hunk → Hunk := fun h =>
        { h with relocs := h.relocs ++ [⟨u, [], .s [], (refh : Int), off⟩] }
      ({ st with db := st.db.updHunk t n i f }, none)

/-- The `for i in range(0, noffsets)` loop of the `HUNK_RELOC32` handler
(cwlink.py:137-140). -/
def relocOffs (refh : Nat) : Nat → RState → RState × Option PyErr
  | 0, st => (st, none)
  | k + 1, st =>
    match readWord st.stream with
    | .error e => (st, some e)
    | .ok (off, s2) =>
      match appendReloc { st with stream := s2 } refh off with
      | (st2, none) => relocOffs refh k st2
      | r => r

/-- The `HUNK_RELOC32` handler (cwlink.py:129-140). -/
def relocLoop : Nat → RState → RState × Option PyErr
  | 0, st => (st, some .outOfFuel)
  | fuel + 1, st =>
    match readWord st.stream with
    | .error e => (st, some e)
    | .ok (noff, s2) =>
      let st := { st with stream := s2 }
      if noff = 0 then (st, none)
      else
        match readWord st.stream with
        | .error e => (st, some e)
        | .ok (refh, s3) =>
          match relocOffs refh noff { st with stream := s3 } with
          | (st2, none) => relocLoop fuel st2
          | r => r

/-- The reference part of the `HUNK_EXT` handler (cwlink.py:159-163). -/
def extRefs (snm : PyStr) (stype : Nat) : Nat → RState → RState × Option PyErr
  | 0, st => (st, none)
  | k + 1, st =>
    match readWord st.stream with
    | .error e => (st, some e)
    | .ok (off, s2) =>
      let st := { st with stream := s2 }
      match st.anchor with
      | none => (st, some .unboundLocal)
      | some (t, n, i) =>
        let f : Hunk → Hunk := fun h => { h with refs := h.refs ++ [⟨snm, stype, off⟩] }
        let st := { st with db := st.db.updHunk t n i f }
        extRefs snm stype k st

/-- The `HUNK_EXT` handler (cwlink.py:142-166): definitions register a global
symbol from the current `uname`/`htype`/`hname`; references are appended to
the anchored hunk; other tags are logged and the loop continues. -/
def extLoop : Nat → RState → RState × Option PyErr
  | 0, st => (st, some .outOfFuel)
  | fuel + 1, st =>
    match readWord st.stream with
    | .error e => (st, some e)
    | .ok (tl, s2) =>
      let st := { st with stream := s2 }
      if tl = 0 then (st, none)
      else
        let stype := tl / 2 ^ 24
        match readStr ((tl % 2 ^ 24) * 4) st.stream with
        | .error e => (st, some e)
        | .ok (snm, s3) =>
          let st := { st with stream := s3 }
          if stype = 1 ∨ stype = 2 ∨ stype = 3 then
            match readWord st.stream with
            | .error e => (st, some e)
            | .ok (sval, s4) =>
              let st := { st with stream := s4 }
              match st.uname, st.htype, st.hname with
              | some u, some t, some hn =>
                let st := { st with db :=
                  { st.db with symbols := dictSet st.db.symbols snm ⟨u, t, hn, sval⟩ } }
                extLoop fuel st
              | _, _, _ => (st, some .unboundLocal)
          else if stype = 129 ∨ stype = 131 ∨ stype = 132 then
            match readWord st.stream with
            | .error e => (st, some e)
            | .ok (nrefs, s4) =>
              match extRefs snm stype nrefs { st with stream := s4 } with
              | (st2, none) => extLoop fuel st2
              | r => r
          else extLoop fuel st

/-- The `HUNK_SYMBOL` handler (cwlink.py:187-195): parse and discard. -/
def symLoop : Nat → RState → RState × Option PyErr
  | 0, st => (st, some .outOfFuel)
  | fuel + 1, st =>
    match readWord st.stream with
    | .error e => (st, some e)
    | .ok (n, s2) =>
      let st := { st with stream := s2 }
      if n = 0 then (st, none)
      else
        match readStr (n * 4) st.stream with
        | .error e => (st, some e)
        | .ok (_, s3) =>
          match readWord s3 with
          | .error e => ({ st with stream := s3 }, some e)
          | .ok (_, s4) => symLoop fuel { st with stream := s4 }

/-- The `HUNK_END` handler (cwlink.py:197-202):
`htype_hname[hnum] = htype + ':' + hname`, then `hnum += 1`.  The anchor is
*not* cleared.  Concatenating raises when `htype`/`hname` are unbound or
`hname` is the `EOFError` class. -/
def endStep (st : RState) : RState × Option PyErr :=
  match st.htype with
  | none => (st, some .unboundLocal)
  | some t =>
    match st.hname with
    | none => (st, some .unboundLocal)
    | some .eofClass => (st, some .typeError)
    | some (.s cs) =>
      ({ st with hh := dictSet st.hh st.hnum (t ++ [58] ++ cs), hnum := st.hnum + 1 }, none)

/-- Normalization of one relocation (cwlink.py:218-220): look its `hnum` up in
`htype_hname` (`KeyError` when absent) and split the stored string at `':'`
(`ValueError` unless exactly two parts). -/
def normReloc (hh : List (Nat × List Nat)) (r : Reloc) : Except PyErr Reloc :=
  match hh.find? (fun p => (p.1 : Int) == r.hnum) with
  | none => .error .keyError
  | some p =>
    match splitCol p.2 with
    | [t2, n2] => .ok { r with htype := t2, hname := .s n2 }
    | _ => .error .valueError

def normRelocs (hh : List (Nat × List Nat)) : List Reloc → Except PyErr (List Reloc)
  | [] => .ok []
  | r :: rs =>
    match normReloc hh r with
    | .error e => .error e
    | .ok r2 => (normRelocs hh rs).map (fun rs2 => r2 :: rs2)

/-- Hunks of other units are skipped (`if hunk.uname != uname: continue`,
cwlink.py:214-216). -/
def normHunks (hh : List (Nat × List Nat)) (u : PyStr) : List Hunk → Except PyErr (List Hunk)
  | [] => .ok []
  | h :: hs =>
    if h.uname = u then
      match normRelocs hh h.relocs with
      | .error e => .error e
      | .ok rl => (normHunks hh u hs).map (fun hs2 => { h with relocs := rl } :: hs2)
    else (normHunks hh u hs).map (fun hs2 => h :: hs2)

def normBucket (hh : List (Nat × List Nat)) (u : PyStr) : Bucket → Except PyErr Bucket
  | [] => .ok []
  | (n, hs) :: t =>
    match normHunks hh u hs with
    | .error e => .error e
    | .ok hs2 => (normBucket hh u t).map (fun t2 => (n, hs2) :: t2)

/-- The normalization phase run at clean end of file (cwlink.py:210-221): it
iterates **only** `self._db.hunks['code']` — relocations of data and bss
hunks are never rewritten. -/
def normalizeDb (st : RState) : Db × Option PyErr :=
  match st.uname with
  | none => (st.db, some .unboundLocal)
  | some u =>
    match normBucket st.hh u st.db.code with
    | .error e => (st.db, some e)
    | .ok b => ({ st.db with code := b }, none)

/-- The numeric values of `BlockType` (cwlink.py:55-75); `BlockType(btype)` in
the debug log on line 110 raises `ValueError` for any other word. -/
def enumVals : List Nat :=
  [999, 1000, 1001, 1002, 1003, 1004, 1005, 1006, 1007, 1008, 1009, 1010,
   1011, 1013, 1014, 1015, 1016, 1017, 1018, 1019]

/-- The main loop of `HunkReader.read` (cwlink.py:107-224).  `EOFError` from
`_read_word` is the only caught exception: after a final `HUNK_END` it
triggers normalization and a clean return; anywhere else the handler logs
with `self.fname` — an attribute that does not exist — so an
`AttributeError` escapes.  A word outside the `BlockType` enum raises
`ValueError` in the line-110 log; a known but unhandled block type reaches
the `else` branch, whose log statement references the undefined name `ex`
and raises `NameError` (cwlink.py:204-206). -/
def decLoop : Nat → RState → Db × Option PyErr
  | 0, st => (st.db, some .outOfFuel)
  | fuel + 1, st =>
    match readWord st.stream with
    | .error .eofError =>
      match st.btype with
      | none => (st.db, some .unboundLocal)
      | some bt => if bt = 1010 then normalizeDb st else (st.db, some .attrError)
    | .error e => (st.db, some e)
    | .ok (bt, s2) =>
      let st := { st with stream := s2, btype := some bt }
      if bt ∉ enumVals then (st.db, some .valueError)
      else
        let res :=
          if bt = 999 then
            match readLenStr st with
            | .error e => (st, some e)
            | .ok (v, st2) => ({ st2 with uname := some v }, none)
          else if bt = 1000 then
            match readLenStr st with
            | .error e => (st, some e)
            | .ok (v, st2) => ({ st2 with hname := some v }, none)
          else if bt = 1001 then sectionStep (pys "code") false st
          else if bt = 1002 then sectionStep (pys "data") false st
          else if bt = 1003 then sectionStep (pys "bss") true st
          else if bt = 1004 then relocLoop (st.stream.length + 1) st
          else if bt = 1007 then extLoop (st.stream.length + 1) st
          else if bt = 1008 then symLoop (st.stream.length + 1) st
          else if bt = 1010 then endStep st
          else (st, some .nameError)
        match res with
        | (st2, none) => decLoop fuel st2
        | (st2, some .eofError) => (st2.db, some .attrError)
        | (st2, some e) => (st2.db, some e)

/-- `HunkReader(fname, db).read()` on the bytes of one object file. -/
def decodeFile (bytes : List Nat) (db : Db) : Db × Option PyErr :=
  decLoop (bytes.length + 1) ⟨bytes, db, 0, [], none, none, none, none, none⟩

/-- The driver loop over the input files (cwlink.py:353-356).  There is no
handler around `reader.read()`: the first escaping exception kills the
program, so later files are not decoded. -/
def runDriver : List (List Nat) → Db → Db × Option PyErr
  | [], db => (db, none)
  | f :: fs, db =>
    match decodeFile f db with
    | (db2, none) => runDriver fs db2
    | (db2, some e) => (db2, some e)

/-- Relocation synthesized by the resolve phase (cwlink.py:368):
`Reloc(sym.uname, sym.htype, sym.hname, -1, ref.offset)`. -/
def synthReloc (sym : Symbol) (off : Nat) : Reloc := ⟨sym.uname, sym.htype, sym.hname, -1, off⟩

/-- The inner loop of the resolve phase over one hunk's references
(cwlink.py:365-374): a reference whose symbol is in the table appends the
synthesized relocation and overwrites the 4-byte slot at its offset with
`pack('>L', sym.offset)`; an absent symbol only logs. -/
def resolveRefs (syms : List (PyStr × Symbol)) :
    List Reference → List Nat → Except PyErr (List Nat × List Reloc)
  | [], c => .ok (c, [])
  | r :: rs, c =>
    match dictGet syms r.sname with
    | none => resolveRefs syms rs c
    | some sym =>
      match packW sym.offset with
      | .error e => .error e
      | .ok wb =>
        match resolveRefs syms rs (setSlice c r.offset wb) with
        | .error e => .error e
        | .ok (c2, l) => .ok (c2, synthReloc sym r.offset :: l)

/-- The resolve phase applied to one hunk (cwlink.py:363-374). -/
def resolveHunk (syms : List (PyStr × Symbol)) (h : Hunk) : Except PyErr Hunk :=
  match resolveRefs syms h.refs h.content with
  | .error e => .error e
  | .ok (c, l) => .ok { h with content := c, relocs := h.relocs ++ l }

def resolveHunks (syms : List (PyStr × Symbol)) : List Hunk → Except PyErr (List Hunk)
  | [] => .ok []
  | h :: hs =>
    match resolveHunk syms h with
    | .error e => .error e
    | .ok h2 => (resolveHunks syms hs).map (fun hs2 => h2 :: hs2)

def resolveBucket (syms : List (PyStr × Symbol)) : Bucket → Except PyErr Bucket
  | [] => .ok []
  | (n, hs) :: t =>
    match resolveHunks syms hs with
    | .error e => .error e
    | .ok hs2 => (resolveBucket syms t).map (fun t2 => (n, hs2) :: t2)

/-- The resolve phase (cwlink.py:360-374): only the `code` and `data`
buckets are visited. -/
def resolveDb (db : Db) : Except PyErr Db :=
  match resolveBucket db.symbols db.code with
  | .error e => .error e
  | .ok c2 =>
    match resolveBucket db.symbols db.data with
    | .error e => .error e
    | .ok d2 => .ok { db with code := c2, data := d2 }

/-- The buckets of the database in the iteration order of the placement-map
phase and of the body emission (cwlink.py:382-383, 278-279): classes in the
fixed order code, bss, data; names in dict insertion order. -/
def mapOrderBuckets (db : Db) : List (List Nat × PyStr × List Hunk) :=
  db.code.map (fun p => (pys "code", p.1, p.2)) ++
  db.bss.map (fun p => (pys "bss", p.1, p.2)) ++
  db.data.map (fun p => (pys "data", p.1, p.2))

/-- The assignments `db.map[source] = target` performed for one
`(class, name)` bucket by the placement-map loop (cwlink.py:384-390): one
entry per hunk, key `uname + ':' + htype + ':' + hname`, value
`(hnum, disp)` with `disp` advanced by the body length after each hunk. -/
def bucketAsg (t : List Nat) (n : PyStr) :
    List Hunk → Nat → Nat → Except PyErr (List (List Nat × Nat × Nat))
  | [], _, _ => .ok []
  | h :: tl, h0, d =>
    match joinKey h.uname t n with
    | .error e => .error e
    | .ok k =>
      match bucketAsg t n tl h0 (d + h.content.length) with
      | .error e => .error e
      | .ok rest => .ok ((k, h0, d) :: rest)

def asgsLoop : List (List Nat × PyStr × List Hunk) → Nat → Except PyErr (List (List Nat × Nat × Nat))
  | [], _ => .ok []
  | x :: tl, h0 =>
    match bucketAsg x.1 x.2.1 x.2.2 h0 0 with
    | .error e => .error e
    | .ok a => (asgsLoop tl (h0 + 1)).map (fun r => a ++ r)

/-- All placement-map assignments, in execution order (cwlink.py:381-391). -/
def mapAsgs (db : Db) : Except PyErr (List (List Nat × Nat × Nat)) :=
  asgsLoop (mapOrderBuckets db) 0

/-- The placement-map phase: perform the assignments in order on `db.map`. -/
def buildMap (db : Db) : Except PyErr Db :=
  (mapAsgs db).map (fun l => { db with map := l.foldl (fun m a => dictSet m a.1 a.2) db.map })

/-- Rounding a byte size up to a multiple of 4 (cwlink.py:263-264, 304-305). -/
def padUp (n : Nat) : Nat := if n % 4 > 0 then n + (4 - n % 4) else n

/-- The patch of one relocation in the patch pass (cwlink.py:287-294):
look the triple key up in `db.map` and, only when the displacement is
positive, add it to the current big-endian value of the 4-byte slot at the
relocation's offset. -/
def patchReloc (m : List (List Nat × Nat × Nat)) (c : List Nat) (r : Reloc) :
    Except PyErr (List Nat) :=
  match joinKey r.uname r.htype r.hname with
  | .error e => .error e
  | .ok k =>
    match dictGet m k with
    | none => .error .keyError
    | some (_, d) =>
      if 0 < d then
        match sliceWord c r.offset with
        | .error e => .error e
        | .ok v =>
          match packW (v + d) with
          | .error e => .error e
          | .ok wb => .ok (setSlice c r.offset wb)
      else .ok c

def patchRelocs (m : List (List Nat × Nat × Nat)) : List Nat → List Reloc → Except PyErr (List Nat)
  | c, [] => .ok c
  | c, r :: rs =>
    match patchReloc m c r with
    | .error e => .error e
    | .ok c2 => patchRelocs m c2 rs

def getHunks (db : Db) (t : List Nat) (n : PyStr) : Except PyErr (List Hunk) :=
  match db.getB t with
  | .error e => .error e
  | .ok b =>
    match dictGet b n with
    | some hs => .ok hs
    | none => .error .keyError

def getMapP (m : List (List Nat × Nat × Nat)) (k : List Nat) : Except PyErr (Nat × Nat) :=
  match dictGet m k with
  | some v => .ok v
  | none => .error .keyError

/-- The per-hunk body of the writer's bucket loop (cwlink.py:284-302): patch
the relocations of the hunk in place, append its (patched) body to the
accumulated content, then shift the hunk's relocation offsets by the hunk's
own displacement and gather them into `all_relocs`. -/
def bucketLoop (t : List Nat) (n : PyStr) :
    List Nat → Db → List Nat → Nat → List Reloc → Except PyErr (Db × List Nat × Nat × List Reloc)
  | [], db, content, hsize, allR => .ok (db, content, hsize, allR)
  | i :: rest, db, content, hsize, allR =>
    match getHunks db t n with
    | .error e => .error e
    | .ok hs =>
      match hs[i]? with
      | none => .error .indexError
      | some hunk =>
        match patchRelocs db.map hunk.content hunk.relocs with
        | .error e => .error e
        | .ok c2 =>
          let db := db.updHunk t n i (fun h => { h with content := c2 })
          match joinKey hunk.uname t n with
          | .error e => .error e
          | .ok k =>
            match getMapP db.map k with
            | .error e => .error e
            | .ok (_, d2) =>
              let relocs2 := hunk.relocs.map (fun r => { r with offset := r.offset + d2 })
              let db := db.updHunk t n i (fun h => { h with relocs := relocs2 })
              bucketLoop t n rest db (content ++ c2) (hsize + c2.length) (allR ++ relocs2)

/-- The names `set([reloc.hname for reloc in all_relocs if reloc.htype == htype])`
(cwlink.py:315). -/
def relocNames (t : List Nat) (allR : List Reloc) : List PyStr :=
  (allR.filterMap (fun r => if r.htype == t then some r.hname else none)).dedup

def offsWords : List Reloc → Except PyErr (List Nat)
  | [] => .ok []
  | r :: rs =>
    match packW r.offset with
    | .error e => .error e
    | .ok wv => (offsWords rs).map (fun l => wv ++ l)

/-- One `RELOC32` group of the writer (cwlink.py:317-325): count word, the
referenced bucket's output hunk number taken from `db.map` at the key built
from the *first* matching relocation's unit name, then the offset words. -/
def relocGroup (m : List (List Nat × Nat × Nat)) (t : List Nat) (n : PyStr) (allR : List Reloc) :
    Except PyErr (List Nat) :=
  let rs := allR.filter (fun r => r.htype == t && r.hname == n)
  match rs with
  | [] => .error .indexError
  | r0 :: _ =>
    match packW rs.length with
    | .error e => .error e
    | .ok cw =>
      match joinKey r0.uname t n with
      | .error e => .error e
      | .ok k =>
        match getMapP m k with
        | .error e => .error e
        | .ok (h3, _) =>
          match packW h3 with
          | .error e => .error e
          | .ok hw => (offsWords rs).map (fun ow => cw ++ hw ++ ow)

def groupsLoop (m : List (List Nat × Nat × Nat)) (t : List Nat) (allR : List Reloc) :
    List PyStr → Except PyErr (List Nat)
  | [] => .ok []
  | n :: ns =>
    match relocGroup m t n allR with
    | .error e => .error e
    | .ok g => (groupsLoop m t allR ns).map (fun r => g ++ r)

def groupsForClass (m : List (List Nat × Nat × Nat)) (t : List Nat) (allR : List Reloc) :
    Except PyErr (List Nat) :=
  match sortPyStrs (relocNames t allR) with
  | .error e => .error e
  | .ok ns => groupsLoop m t allR ns

/-- The `HUNK_RELOC32` emission (cwlink.py:313-326): groups for the target
classes code, bss, data in this order, names sorted within each class.
This inner loop rebinds the Python variables `htype` and `hname`. -/
def emitRelocGroups (m : List (List Nat × Nat × Nat)) (allR : List Reloc) :
    Except PyErr (List Nat) :=
  match groupsForClass m (pys "code") allR with
  | .error e => .error e
  | .ok g1 =>
    match groupsForClass m (pys "bss") allR with
    | .error e => .error e
    | .ok g2 =>
      match groupsForClass m (pys "data") allR with
      | .error e => .error e
      | .ok g3 => .ok (g1 ++ g2 ++ g3)

/-- Emission of one output hunk (cwlink.py:279-327).  `htv` is the *current*
value of the Python loop variable `htype`: the hunks are fetched from
`db.hunks[htv]`, and after a nonempty `RELOC32` block the inner loop of
`emitRelocGroups` has left `htype = 'data'`, which is returned as the new
current value. -/
def emitBucket (btypeOuter : Nat) (htv : List Nat) (n : PyStr) (db : Db) :
    Except PyErr (Db × List Nat × List Nat) :=
  match getHunks db htv n with
  | .error e => .error e
  | .ok hs =>
    match bucketLoop htv n (List.range hs.length) db [] 0 [] with
    | .error e => .error e
    | .ok (db2, content, hsize, allR) =>
      match packW (padUp hsize / 4) with
      | .error e => .error e
      | .ok sizeW =>
        let contentPart := if htv = pys "bss" then [] else content
        if allR.isEmpty then
          .ok (db2, enc32 btypeOuter ++ sizeW ++ contentPart ++ enc32 1010, htv)
        else
          match emitRelocGroups db2.map allR with
          | .error e => .error e
          | .ok rg =>
            .ok (db2,
              enc32 btypeOuter ++ sizeW ++ contentPart ++ enc32 1004 ++ rg ++ enc32 0 ++ enc32 1010,
              pys "data")

/-- The middle loop `for hname in db.hunks[htype]` (cwlink.py:279): the name
sequence is fixed at loop entry, but the class variable `htv` is threaded
because the reloc emission rebinds it. -/
def classLoop (btypeOuter : Nat) : List PyStr → List Nat → Db → Except PyErr (Db × List Nat)
  | [], _, db => .ok (db, [])
  | n :: ns, htv, db =>
    match emitBucket btypeOuter htv n db with
    | .error e => .error e
    | .ok (db2, o, htv2) =>
      match classLoop btypeOuter ns htv2 db2 with
      | .error e => .error e
      | .ok (db3, o2) => .ok (db3, o ++ o2)

def emitClass (t : List Nat) (btypeOuter : Nat) (db : Db) : Except PyErr (Db × List Nat) :=
  match db.getB t with
  | .error e => .error e
  | .ok b => classLoop btypeOuter (b.map Prod.fst) t db

def bucketSizeW (b : Bucket) (n : PyStr) : Nat :=
  padUp ((((dictGet b n).getD []).map (fun h => h.content.length)).sum) / 4

/-- The header size loop of `HunkWriter.write` (cwlink.py:256-267): classes
code, bss, data, and — unlike every other traversal — names in **sorted**
order (`sorted(db.hunks[htype])`, line 259); stated as the already divided
size-in-words (`int(hsizes[i] / 4)`, line 274). -/
def classHeaderSizes (b : Bucket) : Except PyErr (List Nat) :=
  match sortPyStrs (b.map Prod.fst) with
  | .error e => .error e
  | .ok ks => .ok (ks.map (bucketSizeW b))

def headerSizeWords (db : Db) : Except PyErr (List Nat) :=
  match classHeaderSizes db.code with
  | .error e => .error e
  | .ok s1 =>
    match classHeaderSizes db.bss with
    | .error e => .error e
    | .ok s2 =>
      match classHeaderSizes db.data with
      | .error e => .error e
      | .ok s3 => .ok (s1 ++ s2 ++ s3)

def packAll : List Nat → Except PyErr (List Nat)
  | [] => .ok []
  | n :: ns =>
    match packW n with
    | .error e => .error e
    | .ok wb => (packAll ns).map (fun r => wb ++ r)

/-- The `HUNK_HEADER` emission (cwlink.py:252-274): block word, 0, hunk
count, 0, `hnum - 1` (which `pack('>L', ...)` rejects when negative), then
the size words. -/
def writeHeader (db : Db) : Except PyErr (List Nat) :=
  match headerSizeWords db with
  | .error e => .error e
  | .ok sw =>
    let hn := db.code.length + db.bss.length + db.data.length
    match packW hn with
    | .error e => .error e
    | .ok hw =>
      match packWI ((hn : Int) - 1) with
      | .error e => .error e
      | .ok lw =>
        match packAll sw with
        | .error e => .error e
        | .ok sws => .ok (enc32 1011 ++ enc32 0 ++ hw ++ enc32 0 ++ lw ++ sws)

/-- `HunkWriter.write` (cwlink.py:250-327): header, then the code, bss and
data classes in order. -/
def writeExe (db : Db) : Except PyErr (List Nat × Db) :=
  match writeHeader db with
  | .error e => .error e
  | .ok hd =>
    match emitClass (pys "code") 1001 db with
    | .error e => .error e
    | .ok (db1, o1) =>
      match emitClass (pys "bss") 1003 db1 with
      | .error e => .error e
      | .ok (db2, o2) =>
        match emitClass (pys "data") 1002 db2 with
        | .error e => .error e
        | .ok (db3, o3) => .ok (hd ++ o1 ++ o2 ++ o3, db3)

/-- The whole linker pipeline of the module top level (cwlink.py:353-397):
decode every file, resolve, build the placement map, write. -/
def linkDb (files : List (List Nat)) : Except PyErr Db :=
  match runDriver files emptyDb with
  | (_, some e) => .error e
  | (db, none) =>
    match resolveDb db with
    | .error e => .error e
    | .ok db2 => buildMap db2

def linkAll (files : List (List Nat)) : Except PyErr (List Nat) :=
  match linkDb files with
  | .error e => .error e
  | .ok db => (writeExe db).map Prod.fst

/-- Read and discard `k` words (`hunkinfo.py:489-490, 566-567`). -/
def xReadWords : Nat → List Nat → Except PyErr (List Nat)
  | 0, s => .ok s
  | k + 1, s =>
    match readWord s with
    | .error e => .error e
    | .ok (_, s2) => xReadWords k s2

/-- `_read_header_block` of the inspector (hunkinfo.py:481-490): reserved-lib
word, hunk count, first and last hunk numbers, then one size word per hunk
in `range(fhunk, lhunk + 1)`. -/
def xHeader (s : List Nat) : Except PyErr (List Nat) :=
  match readWord s with
  | .error e => .error e
  | .ok (_, s2) =>
    match readWord s2 with
    | .error e => .error e
    | .ok (_, s3) =>
      match readWord s3 with
      | .error e => .error e
      | .ok (f, s4) =>
        match readWord s4 with
        | .error e => .error e
        | .ok (l, s5) => xReadWords (l + 1 - f) s5

/-- `_read_reloc32_block` of the inspector (hunkinfo.py:557-567). -/
def xSkipGroups : Nat → List Nat → Except PyErr (List Nat)
  | 0, _ => .error .outOfFuel
  | fuel + 1, s =>
    match readWord s with
    | .error e => .error e
    | .ok (n, s2) =>
      if n = 0 then .ok s2
      else
        match readWord s2 with
        | .error e => .error e
        | .ok (_, s3) =>
          match xReadWords n s3 with
          | .error e => .error e
          | .ok s4 => xSkipGroups fuel s4

/-- `_read_symbol_block` of the inspector (hunkinfo.py:545-554). -/
def xSymLoop : Nat → List Nat → Except PyErr (List Nat)
  | 0, _ => .error .outOfFuel
  | fuel + 1, s =>
    match readWord s with
    | .error e => .error e
    | .ok (n, s2) =>
      if n = 0 then .ok s2
      else
        match readStr (n * 4) s2 with
        | .error e => .error e
        | .ok (_, s3) =>
          match readWord s3 with
          | .error e => .error e
          | .ok (_, s4) => xSymLoop fuel s4

/-- `_read_ext_block` of the inspector (hunkinfo.py:523-542): an unsupported
symbol type raises `ValueError`. -/
def xExtLoop : Nat → List Nat → Except PyErr (List Nat)
  | 0, _ => .error .outOfFuel
  | fuel + 1, s =>
    match readWord s with
    | .error e => .error e
    | .ok (tl, s2) =>
      if tl = 0 then .ok s2
      else
        let stype := tl / 2 ^ 24
        match readStr ((tl % 2 ^ 24) * 4) s2 with
        | .error e => .error e
        | .ok (_, s3) =>
          if stype = 1 ∨ stype = 2 ∨ stype = 3 then
            match readWord s3 with
            | .error e => .error e
            | .ok (_, s4) => xExtLoop fuel s4
          else if stype = 129 ∨ stype = 131 ∨ stype = 132 then
            match readWord s3 with
            | .error e => .error e
            | .ok (n, s4) =>
              match xReadWords n s4 with
              | .error e => .error e
              | .ok s5 => xExtLoop fuel s5
          else .error .valueError

/-- `self._read_string(self._read_word() * 4)` of the inspector's UNIT/NAME
handlers (hunkinfo.py:493-500). -/
def xLenStr (s : List Nat) : Except PyErr (List Nat) :=
  match readWord s with
  | .error e => .error e
  | .ok (n, s2) =>
    match readStr (n * 4) s2 with
    | .error e => .error e
    | .ok (_, s3) => .ok s3

/-- The block walk of the inspector's `HunkReader.read` (hunkinfo.py:417-447)
restricted to recording, per section block, its type word and its body bytes
(for `HUNK_BSS` the logical zero-filled body of the declared size).
`EOFError` is caught and ends the walk; an unknown block code raises
`KeyError` in the dispatch, which is caught and ends the walk; every other
exception is re-raised.  The print-only parsing of `HUNK_DEBUG` payloads is
not followed: the block's declared bytes are skipped. -/
def xLoop : Nat → List Nat → List (Nat × List Nat) → Except PyErr (List (Nat × List Nat))
  | 0, _, _ => .error .outOfFuel
  | fuel + 1, s, acc =>
    match readWord s with
    | .error .eofError => .ok acc
    | .error e => .error e
    | .ok (bt, s2) =>
      if bt = 1010 then xLoop fuel s2 acc
      else
        let step : Except PyErr (List Nat × List (Nat × List Nat)) :=
          if bt = 1011 then (xHeader s2).map (fun s3 => (s3, acc))
          else if bt = 999 ∨ bt = 1000 then (xLenStr s2).map (fun s3 => (s3, acc))
          else if bt = 1001 ∨ bt = 1002 then
            match readWord s2 with
            | .error e => .error e
            | .ok (n, s3) => .ok (s3.drop (4 * n), acc ++ [(bt, s3.take (4 * n))])
          else if bt = 1003 then
            match readWord s2 with
            | .error e => .error e
            | .ok (n, s3) => .ok (s3, acc ++ [(bt, List.replicate (4 * n) 0)])
          else if bt = 1004 then (xSkipGroups (s2.length + 1) s2).map (fun s3 => (s3, acc))
          else if bt = 1007 then (xExtLoop (s2.length + 1) s2).map (fun s3 => (s3, acc))
          else if bt = 1008 then (xSymLoop (s2.length + 1) s2).map (fun s3 => (s3, acc))
          else if bt = 1009 then
            match readWord s2 with
            | .error e => .error e
            | .ok (n, s3) => .ok (s3.drop (4 * n), acc)
          else .error .keyError
        match step with
        | .ok (s3, acc2) => xLoop fuel s3 acc2
        | .error .eofError => .ok acc
        | .error .keyError => .ok acc
        | .error e => .error e

/-- Decode the produced executable and re-extract, in order, each output
hunk's class word and body. -/
def extractBodies (bytes : List Nat) : Except PyErr (List (Nat × List Nat)) :=
  xLoop (bytes.length + 1) bytes []

/-- The partial sums `d, d + l0, d + l0 + l1, ...` (one per list entry):
the sequence starts at `d`, and each successive difference is the
corresponding list entry. -/
def prefSumsFrom (d : Nat) : List Nat → List Nat
  | [] => []
  | l :: ls => d :: prefSumsFrom (d + l) ls

/-- The relocation that the spec says phase R synthesizes for a reference:
`some` exactly when the symbol is in the table. -/
def synthOf (syms : List (PyStr × Symbol)) (r : Reference) : Option Reloc :=
  (dictGet syms r.sname).map (fun sym => synthReloc sym r.offset)

/-- The content update that the spec says phase R performs for one
reference: overwrite the 4 bytes at its offset with the big-endian encoding
of the symbol's value; leave the body alone for an absent symbol. -/
def patchRefStep (syms : List (PyStr × Symbol)) (c : List Nat) (r : Reference) : List Nat :=
  match dictGet syms r.sname with
  | some sym => setSlice c r.offset (enc32 sym.offset)
  | none => c

/-- The per-bucket size words in the class/name iteration order of phase M
(insertion order of names; classes code, bss, data). -/
def mOrderSizeWords (db : Db) : List Nat :=
  (mapOrderBuckets db).map (fun x => padUp ((x.2.2.map (fun h => h.content.length)).sum) / 4)

/-- A hunk's body after the patch pass has been applied to it. -/
def patchedContent (m : List (List Nat × Nat × Nat)) (h : Hunk) : Except PyErr (List Nat) :=
  patchRelocs m h.content h.relocs

def classBt (t : List Nat) : Nat :=
  if t = pys "code" then 1001 else if t = pys "bss" then 1003 else 1002

/-- What the round-trip claim expects to read back: for each `(class, name)`
bucket, in phase-M order, the concatenation of the patched bodies of the
hunks registered under that name, in insertion order. -/
def bodiesSpec (db : Db) : Except PyErr (List (Nat × List Nat)) :=
  (mapOrderBuckets db).mapM
    (fun x => (x.2.2.mapM (patchedContent db.map)).map (fun cs => (classBt x.1, cs.flatten)))

/-- Big-endian word, as bytes. -/
def w (n : Nat) : List Nat := enc32 n

/-- NUL-pad a name to a whole number of words. -/
def pad4 (l : List Nat) : List Nat := l ++ List.replicate ((4 - l.length % 4) % 4) 0

/-- A length-prefixed, NUL-padded name field of the wire format. -/
def sblk (s : String) : List Nat :=
  let p := pad4 (pys s)
  w (p.length / 4) ++ p

/-- Object file for C1: unit `u` with code hunks named `b` (4 bytes) then
`a` (8 bytes), so the insertion order of the names is not alphabetical. -/
def c1obj : List Nat :=
  w 999 ++ sblk "u" ++
  w 1000 ++ sblk "b" ++ w 1001 ++ w 1 ++ [1, 2, 3, 4] ++ w 1010 ++
  w 1000 ++ sblk "a" ++ w 1001 ++ w 2 ++ [5, 5, 5, 5, 6, 6, 6, 6] ++ w 1010

def c1Db : Db :=
  match linkDb [c1obj] with
  | .ok db => db
  | .error _ => emptyDb

/-- Object file for C2: unit `u` with one data hunk `d` of 4 bytes carrying
one 32-bit relocation (target hunk 0, offset 0). -/
def c2obj : List Nat :=
  w 999 ++ sblk "u" ++
  w 1000 ++ sblk "d" ++ w 1002 ++ w 1 ++ [5, 5, 5, 5] ++
  w 1004 ++ w 1 ++ w 0 ++ w 0 ++ w 0 ++ w 1010

/-- Object file for C3: unit `u` with code hunk `a` (one relocation
targeting hunk 0, i.e. itself), code hunk `b`, and data hunk `b`. -/
def c3obj : List Nat :=
  w 999 ++ sblk "u" ++
  w 1000 ++ sblk "a" ++ w 1001 ++ w 1 ++ [0, 0, 0, 0] ++
  w 1004 ++ w 1 ++ w 0 ++ w 0 ++ w 0 ++ w 1010 ++
  w 1000 ++ sblk "b" ++ w 1001 ++ w 1 ++ [1, 1, 1, 1] ++ w 1010 ++
  w 1000 ++ sblk "b" ++ w 1002 ++ w 1 ++ [2, 2, 2, 2] ++ w 1010

/-- The bytes the linker writes for `c3obj`, then re-decoded. -/
def c3Extract : Except PyErr (List (Nat × List Nat)) :=
  match linkAll [c3obj] with
  | .error e => .error e
  | .ok out => extractBodies out

/-- What the round-trip claim expects for `c3obj`. -/
def c3Claimed : Except PyErr (List (Nat × List Nat)) :=
  match linkDb [c3obj] with
  | .error e => .error e
  | .ok db => bodiesSpec db

/-- Concrete instances for the C4 witness. -/
def c4m : List (List Nat × Nat × Nat) := [(pys "u:code:a", (0, 2))]
def c4c : List Nat := [0, 0, 0, 5, 7]
def c4r : Reloc := ⟨.s (pys "u"), pys "code", .s (pys "a"), 0, 0⟩

/-- Concrete instances for the C5 witness. -/
def c5syms : List (PyStr × Symbol) :=
  [(.s (pys "foo"), ⟨.s (pys "u"), pys "code", .s (pys "t"), 4⟩)]
def c5h : Hunk :=
  ⟨.s (pys "v"), [1, 2, 3, 4, 5, 6, 7, 8],
   [⟨.s (pys "foo"), 129, 0⟩, ⟨.s (pys "bar"), 129, 4⟩], []⟩

/-- Concrete instances for C6: a bucket whose first hunk has an empty body
(a 0-word `CODE` block), followed by a 4-byte hunk. -/
def c6hA : Hunk := ⟨.s (pys "u"), [], [], []⟩
def c6hB : Hunk := ⟨.s (pys "u2"), [9, 9, 9, 9], [], []⟩

/-- Input files for C7: `c7bad` ends in the block code 1013 (`HUNK_OVERLAY`,
a `BlockType` member with no handler); `c7good` is a well-formed unit. -/
def c7bad : List Nat :=
  w 999 ++ sblk "u" ++ w 1000 ++ sblk "n" ++ w 1001 ++ w 1 ++ [9, 9, 9, 9] ++ w 1010 ++ w 1013
def c7good : List Nat :=
  w 999 ++ sblk "v" ++ w 1000 ++ sblk "m" ++ w 1001 ++ w 1 ++ [1, 2, 3, 4] ++ w 1010

/-- Object file for C9: `NAME foo` binds the first code hunk's name; the
second `CODE` block has no preceding `NAME`. -/
def c9obj : List Nat :=
  w 999 ++ sblk "u" ++ w 1000 ++ sblk "foo" ++ w 1001 ++ w 1 ++ [0, 0, 0, 0] ++ w 1010 ++
  w 1001 ++ w 1 ++ [1, 1, 1, 1] ++ w 1010

/-- Object file for the second C9 scenario: a `CODE` block in a file that
contains no `NAME` block at all. -/
def c9obj2 : List Nat := w 999 ++ sblk "u" ++ w 1001 ++ w 1 ++ [0, 0, 0, 0]

def isOkE {α : Type} : Except PyErr α → Bool
  | .ok _ => true
  | .error _ => false

def c2Db : Db := (runDriver [c2obj] emptyDb).1

def c7Res : Db × Option PyErr := runDriver [c7bad, c7good] emptyDb

def c9Res : Db × Option PyErr := runDriver [c9obj] emptyDb

/-- The hunk that resolving `c5h` against `c5syms` produces. -/
def c5res : Hunk :=
  ⟨.s (pys "v"), [0, 0, 0, 4, 5, 6, 7, 8], c5h.refs,
   [⟨.s (pys "u"), pys "code", .s (pys "t"), -1, 0⟩]⟩

/-- The `hnum` components of a bucket's placement assignments are all the
bucket's output hunk number, and the displacement components are the partial
sums of the body lengths starting from the incoming displacement. -/
theorem bucketAsg_parts (t : List Nat) (n : PyStr) :
    ∀ (hs : List Hunk) (h0 d : Nat) (l : List (List Nat × Nat × Nat)),
      bucketAsg t n hs h0 d = .ok l →
      l.map (fun a => a.2.1) = List.replicate hs.length h0 ∧
      l.map (fun a => a.2.2) = prefSumsFrom d (hs.map (fun h => h.content.length))
  | [], h0, d, l, h => by
    simp only [bucketAsg, Except.ok.injEq] at h
    subst h
    simp [prefSumsFrom]
  | h1 :: hs, h0, d, l, h => by
    unfold bucketAsg at h
    cases hk : joinKey h1.uname t n with
    | error e => rw [hk] at h; exact absurd h (by simp)
    | ok k =>
      rw [hk] at h
      cases hr : bucketAsg t n hs h0 (d + h1.content.length) with
      | error e => rw [hr] at h; exact absurd h (by simp)
      | ok rest =>
        rw [hr] at h
        simp only [Except.ok.injEq] at h
        subst h
        have ih := bucketAsg_parts t n hs h0 (d + h1.content.length) rest hr
        simp [prefSumsFrom, ih.1, ih.2, List.replicate_succ]

/-- Partial sums of naturals are non-decreasing. -/
theorem prefSumsFrom_chain : ∀ (lens : List Nat) (d : Nat),
    List.Chain' (· ≤ ·) (prefSumsFrom d lens)
  | [], _ => by simp [prefSumsFrom]
  | [_], _ => by simp [prefSumsFrom]
  | l :: l2 :: ls, d => by
    have h2 := prefSumsFrom_chain (l2 :: ls) (d + l)
    simp only [prefSumsFrom] at h2 ⊢
    exact List.chain'_cons.mpr ⟨by omega, h2⟩

/-- Characterization of the resolve loop over one hunk's references: the
synthesized relocations are exactly the `filterMap` of the spec-side
synthesis, and the body is the left fold of the spec-side slot overwrite. -/
theorem resolveRefs_parts (syms : List (PyStr × Symbol)) :
    ∀ (rs : List Reference) (c c2 : List Nat) (l : List Reloc),
      resolveRefs syms rs c = .ok (c2, l) →
      l = rs.filterMap (synthOf syms) ∧ c2 = rs.foldl (patchRefStep syms) c
  | [], c, c2, l, h => by
    simp only [resolveRefs, Except.ok.injEq, Prod.mk.injEq] at h
    simp [h.1.symm, h.2.symm]
  | r :: rs, c, c2, l, h => by
    unfold resolveRefs at h
    split at h
    next hs =>
      have ih := resolveRefs_parts syms rs c c2 l h
      refine ⟨?_, ?_⟩
      · simpa [List.filterMap_cons, synthOf, hs] using ih.1
      · simpa [patchRefStep, hs] using ih.2
    next sym hs =>
      split at h
      next e hp => exact absurd h (by simp)
      next wb hp =>
        split at h
        next e hr => exact absurd h (by simp)
        next c3 l3 hr =>
          simp only [Except.ok.injEq, Prod.mk.injEq] at h
          have hwb : wb = enc32 sym.offset := by
            unfold packW at hp
            split at hp
            · exact ((Except.ok.injEq _ _).mp hp).symm
            · exact absurd hp (by simp)
          have ih := resolveRefs_parts syms rs (setSlice c r.offset wb) c3 l3 hr
          refine ⟨?_, ?_⟩
          · rw [← h.2]
            simp [List.filterMap_cons, synthOf, hs, ih.1]
          · rw [← h.1]
            simp only [List.foldl_cons]
            rw [ih.2, hwb]
            simp [patchRefStep, hs]

/-- C1: the claim states that the `HUNK_HEADER` size words appear in the same
class/name iteration order as phase M (names in insertion order).  The code
iterates `sorted(db.hunks[htype])` in the header loop (cwlink.py:259) but
insertion order in phase M (cwlink.py:383): for the reachable database built
from `c1obj` (code hunk names first seen in the order `b`, `a`), the header
sizes come out as `[2, 1]` (alphabetical) while the phase-M order gives
`[1, 2]`. -/
theorem c1_header_order :
    isOkE (linkDb [c1obj]) = true ∧
    headerSizeWords c1Db = .ok [2, 1] ∧
    mOrderSizeWords c1Db = [1, 2] ∧
    headerSizeWords c1Db ≠ .ok (mOrderSizeWords c1Db) := by
  decide

/-- C2: the claim states that after a unit's decode every relocation of every
hunk of the unit carries a complete triple.  Decoding `c2obj` (a data hunk
with one relocation) succeeds, but the relocation of the data hunk keeps the
empty class and name it was created with — the normalization loop
(cwlink.py:212) visits only `db.hunks['code']` — even though the triple for
target hunk 0 would be class `data`. -/
theorem c2_normalization_gap :
    (runDriver [c2obj] emptyDb).2 = none ∧
    (dictGet c2Db.data (.s (pys "d"))).map (fun hs => hs.map (fun h => h.relocs)) =
      some [[⟨.s (pys "u"), [], .s [], 0, 0⟩]] ∧
    ([] : List Nat) ≠ pys "data" := by
  decide

/-- C3: the claim states that re-decoding the produced executable yields, per
output hunk, the concatenation of the patched bodies registered under its
`(class, name)`.  For the reachable database of `c3obj`, the emitted bytes
re-extract to bodies `[[0,0,0,0], [2,2,2,2], [2,2,2,2]]` while the claim
expects `[[0,0,0,0], [1,1,1,1], [2,2,2,2]]`: the `RELOC32` emission loop
rebinds the Python variable `htype` (cwlink.py:314), so the second code
bucket is read from `db.hunks['data']`. -/
theorem c3_roundtrip_bug :
    c3Extract = .ok [(1001, [0, 0, 0, 0]), (1001, [2, 2, 2, 2]), (1002, [2, 2, 2, 2])] ∧
    c3Claimed = .ok [(1001, [0, 0, 0, 0]), (1001, [1, 1, 1, 1]), (1002, [2, 2, 2, 2])] ∧
    c3Extract ≠ c3Claimed := by
  decide

/-- C4: in the patch pass, a relocation whose triple maps to `(hnum, disp)`
leaves the 4-byte slot untouched when `disp = 0` and adds `disp` to its
big-endian value when `disp > 0` (cwlink.py:287-294). -/
theorem c4_patch_semantics (m : List (List Nat × Nat × Nat)) (c : List Nat) (r : Reloc)
    (k : List Nat) (h0 d : Nat)
    (hk : joinKey r.uname r.htype r.hname = .ok k) (hm : dictGet m k = some (h0, d)) :
    (d = 0 → patchReloc m c r = .ok c) ∧
    (∀ v, 0 < d → sliceWord c r.offset = .ok v → v + d < 2 ^ 32 →
      patchReloc m c r = .ok (setSlice c r.offset (enc32 (v + d)))) := by
  constructor
  · intro hd
    subst hd
    simp [patchReloc, hk, hm]
  · intro v hd hv hlt
    simp [patchReloc, hk, hm, hv, hd, packW, hlt]
    rw [if_pos (show v + d < 4294967296 from hlt)]

theorem c4_patch_semantics_witness : patchReloc c4m c4c c4r = .ok [0, 0, 0, 7, 7] := by
  have h := (c4_patch_semantics c4m c4c c4r (pys "u:code:a") 0 2 (by decide) (by decide)).2 5
    (by decide) (by decide) (by decide)
  exact h.trans (by decide)

/-- C5: the resolve phase appends, for each reference whose symbol is
present, exactly one relocation whose triple is the symbol's definition site
and whose offset is the reference's, and overwrites the 4 bytes at the
reference's offset with the big-endian symbol value; references to absent
symbols contribute nothing (cwlink.py:360-374). -/
theorem c5_resolve_semantics (syms : List (PyStr × Symbol)) (h h2 : Hunk)
    (hok : resolveHunk syms h = .ok h2) :
    h2.relocs = h.relocs ++ h.refs.filterMap (synthOf syms) ∧
    h2.content = h.refs.foldl (patchRefStep syms) h.content ∧
    h2.refs = h.refs ∧ h2.uname = h.uname := by
  unfold resolveHunk at hok
  split at hok
  next e hr => exact absurd hok (by simp)
  next c l hr =>
    simp only [Except.ok.injEq] at hok
    have hp := resolveRefs_parts syms h.refs h.content c l hr
    subst hok
    exact ⟨by rw [hp.1], by rw [hp.2], rfl, rfl⟩

theorem c5_resolve_semantics_witness :
    c5res.relocs = c5h.relocs ++ c5h.refs.filterMap (synthOf c5syms) ∧
    c5res.content = c5h.refs.foldl (patchRefStep c5syms) c5h.content ∧
    c5res.refs = c5h.refs ∧ c5res.uname = c5h.uname :=
  c5_resolve_semantics c5syms c5h c5res (by decide)

/-- C6 (amended): for every `(class, hname)` bucket, every placement-map
assignment of the bucket carries the same output hunk index, and the
displacements assigned to the bucket's hunks are the partial sums of the
body lengths in insertion order — they start at 0, each successive
difference is the corresponding body length, and the sequence is
non-decreasing (strictly increasing only when every body is nonempty). -/
theorem c6_map_invariant (t : List Nat) (n : PyStr) (hs : List Hunk) (h0 : Nat)
    (l : List (List Nat × Nat × Nat)) (h : bucketAsg t n hs h0 0 = .ok l) :
    l.map (fun a => a.2.1) = List.replicate hs.length h0 ∧
    l.map (fun a => a.2.2) = prefSumsFrom 0 (hs.map (fun hk => hk.content.length)) ∧
    List.Chain' (· ≤ ·) (l.map (fun a => a.2.2)) := by
  have hp := bucketAsg_parts t n hs h0 0 l h
  exact ⟨hp.1, hp.2, hp.2 ▸ prefSumsFrom_chain _ 0⟩

theorem c6_map_invariant_witness :
    ([(pys "u2:code:t", 3, 0)] : List (List Nat × Nat × Nat)).map (fun a => a.2.1) =
      List.replicate [c6hB].length 3 ∧
    ([(pys "u2:code:t", 3, 0)] : List (List Nat × Nat × Nat)).map (fun a => a.2.2) =
      prefSumsFrom 0 ([c6hB].map (fun hk => hk.content.length)) ∧
    List.Chain' (· ≤ ·) (([(pys "u2:code:t", 3, 0)] :
      List (List Nat × Nat × Nat)).map (fun a => a.2.2)) :=
  c6_map_invariant (pys "code") (.s (pys "t")) [c6hB] 3 [(pys "u2:code:t", 3, 0)] (by decide)

/-- C6 counterexample: in a bucket whose first hunk has an empty body (a
0-word `CODE` block) followed by a 4-byte hunk, the assigned displacements
are `[0, 0]` — not a strictly increasing sequence as the claim states. -/
theorem c6_strict_counterexample :
    (bucketAsg (pys "code") (.s (pys "t")) [c6hA, c6hB] 0 0).map
      (fun l => l.map (fun a => a.2.2)) = .ok [0, 0] ∧
    ¬ List.Chain' (· < ·) [0, 0] := by
  refine ⟨by decide, fun hch => ?_⟩
  have h00 := (List.chain'_cons.mp hch).1
  omega

/-- C7: the claim states that an unknown block code is reported, the file's
decode is aborted with its data kept, and the driver continues with the next
file.  Feeding `c7bad` (which ends in the handler-less block code 1013)
followed by `c7good`: the `else` branch's log statement references the
undefined name `ex` (cwlink.py:205), so `NameError` escapes; the already
registered code hunk `n` remains in the database, but the driver never
decodes the second file (no bucket `m` exists). -/
theorem c7_unknown_block_crash :
    c7Res.2 = some .nameError ∧
    (dictGet c7Res.1.code (.s (pys "n"))).map (fun hs => hs.map (fun h => h.content)) =
      some [[9, 9, 9, 9]] ∧
    dictGet c7Res.1.code (.s (pys "m")) = none := by
  decide

/-- C8: the claim states `read_word` fails with `Eof` whenever fewer than 4
bytes remain and `read_padded_ascii` fails with `Eof` on a short read.  With
2 bytes remaining, `_read_word` raises `struct.error`, not `EOFError` (only
an empty read raises `EOFError`); `_read_string` *returns* the `EOFError`
class on an empty read and raises `struct.error` on a partial one. -/
theorem c8_reader_eof :
    readWord ([1, 2] : List Nat) = .error .structError ∧
    readWord ([] : List Nat) = .error .eofError ∧
    (Except.error .structError : Except PyErr (Nat × List Nat)) ≠ .error .eofError ∧
    readStr 4 [] = .ok (.eofClass, []) ∧
    readStr 8 [65, 0, 0, 0] = .error .structError := by
  decide

/-- C9: the claim states a pending `NAME` is consumed by the next section
block only, so a section without a preceding `NAME` gets the empty name.
Decoding `c9obj` (NAME foo; CODE; END; CODE; END) puts *both* code hunks
under the bucket `foo` — the variable `hname` is never cleared — and no
empty-named bucket exists; with no `NAME` block at all (`c9obj2`) the `CODE`
handler raises `UnboundLocalError` instead of using the empty string. -/
theorem c9_stale_pending_name :
    c9Res.2 = none ∧
    c9Res.1.code.map Prod.fst = [.s (pys "foo")] ∧
    (dictGet c9Res.1.code (.s (pys "foo"))).map List.length = some 2 ∧
    dictGet c9Res.1.code (.s []) = none ∧
    (runDriver [c9obj2] emptyDb).2 = some .unboundLocal := by
  decide

/-- C10: with an empty database the writer reaches
`self._write_word(hnum - 1)` with `hnum = 0`, and `pack('>L', -1)` raises
`struct.error`: header construction fails and no executable is produced. -/
theorem c10_empty_db_write_fails : writeExe emptyDb = .error .structError := by
  decide

end CWLink
